import Mathlib

/-!
Shallow embedding of the type-to-schema inference engine of
pulumi-go-provider (src/infer/schema.go) and proofs about it.

Go reflect types are modelled by the inductive GoType below.  Interface
capabilities that schema.go probes dynamically (pulumi.Input, pulumi.Output,
sch.Resource, pulumi.Resource, the Annotated hook, the enum registry and the
token self-registration mechanism) are carried as data on the struct
constructor, since in Go they are properties of a named type that reflection
can only observe, not compute structurally.  Go error returns are modelled by
Err.fail; a Go panic (contract.Assertf, reflect panics) is modelled by
Err.fatal, which every caller propagates without wrapping.  Error message
strings follow the fmt.Errorf format strings of the source with the quote
characters dropped.
-/

/-- Outcome channel of fallible Go code: fail models a returned error value,
fatal models a panic that unwinds through every caller unwrapped. -/
inductive Err where
  | fail (msg : String)
  | fatal (msg : String)
deriving DecidableEq

/-- Parsed per-field tag metadata, the result of introspect.ParseTag.
Modelled from the spec: introspect.ParseTag is not under src/; the spec gives
only the tag keys (name, optional, secret, replaceOnChanges, internal,
type=locator) and that malformed tag text is a TagParseError, so each field of
the embedding carries its parse outcome directly. -/
structure FieldTag where
  name : String
  optional : Bool
  secret : Bool
  replaceOnChanges : Bool
  internal : Bool
  externalType : String
deriving DecidableEq

/-- Result of the metadata collaborator (introspect.Annotator).
Modelled from the spec: descriptions, defaults and default environment
variable lists keyed by exposed field name; the empty key holds the
whole-type description. -/
structure Annotator where
  descriptions : List (String × String)
  defaults : List (String × String)
  defaultEnvs : List (String × List String)
deriving DecidableEq

/-- A Go type as seen by reflect in schema.go.  The strct constructor carries
the capabilities schema.go probes:
  schRes: some (token, getTokenErr) when the type or its pointer implements
    sch.Resource (GetToken result embedded);
  pulumiRes: the type or its pointer implements pulumi.Resource;
  outputElem: some elem when a value of the type satisfies pulumi.Output with
    ElementType elem (the source checks this dynamically in two slightly
    different ways, an inconsistency the spec flags as an open question; the
    embedding uses one capability for both);
  isInput: the type implements pulumi.Input;
  methods: method name to first return type, for MethodByName;
  tokenRes: result of introspect.GetToken (modelled from the spec, the
    self-registration token mechanism is not under src/);
  annots: some a when the type implements the Annotated hook (modelled from
    the spec, introspect.NewAnnotator is not under src/).
The enum constructor models a named type registered in the enum registry
(isEnum is not under src/, modelled from the spec: enum membership yields its
token); base is its underlying kind.  Array lengths are not tracked. -/
inductive GoType where
  | bool | int | int8 | int16 | int32 | int64
  | uint | uint8 | uint16 | uint32 | uint64
  | float32 | float64 | str
  | iface
  | ptr (elem : GoType)
  | mp (key elem : GoType)
  | slice (elem : GoType)
  | array (elem : GoType)
  | enum (name token : String) (base : GoType)
  | strct (name : String)
      (fields : List (String × Except String FieldTag × GoType))
      (schRes : Option (String × Option String))
      (pulumiRes : Bool)
      (outputElem : Option GoType)
      (isInput : Bool)
      (methods : List (String × GoType))
      (tokenRes : String × Option String)
      (annots : Option Annotator)

/-- Strip pointer indirection, the for t.Kind() == reflect.Pointer loops. -/
def stripPtr : GoType → GoType
  | .ptr t => stripPtr t
  | t => t

/-- reflect sees through a named (enum) type to its underlying kind. -/
def enumBase : GoType → GoType
  | .enum _ _ b => enumBase b
  | t => t

/-- Type printer standing in for reflect.Type.String in error messages. -/
def GoType.render : GoType → String
  | .bool => "bool" | .int => "int" | .int8 => "int8" | .int16 => "int16"
  | .int32 => "int32" | .int64 => "int64"
  | .uint => "uint" | .uint8 => "uint8" | .uint16 => "uint16"
  | .uint32 => "uint32" | .uint64 => "uint64"
  | .float32 => "float32" | .float64 => "float64" | .str => "string"
  | .iface => "interface"
  | .ptr e => "*" ++ e.render
  | .mp k v => "map[" ++ k.render ++ "]" ++ v.render
  | .slice e => "[]" ++ e.render
  | .array e => "[N]" ++ e.render
  | .enum n _ _ => n
  | .strct n _ _ _ _ _ _ _ _ => n

/-- Enum registry lookup, isEnum.  Modelled from the spec: enum membership is
recorded on the type itself. -/
def isEnum : GoType → Option String
  | .enum _ tok _ => some tok
  | _ => none

def typeNameOf : GoType → String
  | .strct n _ _ _ _ _ _ _ _ => n
  | .enum n _ _ => n
  | _ => ""

def schResOf : GoType → Option (String × Option String)
  | .strct _ _ s _ _ _ _ _ _ => s
  | _ => none

def pulumiResOf : GoType → Bool
  | .strct _ _ _ p _ _ _ _ _ => p
  | _ => false

def outputElemOf : GoType → Option GoType
  | .strct _ _ _ _ o _ _ _ _ => o
  | _ => none

def isInputOf : GoType → Bool
  | .strct _ _ _ _ _ i _ _ _ => i
  | _ => false

def methodsOf : GoType → List (String × GoType)
  | .strct _ _ _ _ _ _ m _ _ => m
  | _ => []

def tokenResOf : GoType → String × Option String
  | .strct _ _ _ _ _ _ _ tk _ => tk
  | _ => ("", none)

def annotsOf : GoType → Option Annotator
  | .strct _ _ _ _ _ _ _ _ a => a
  | _ => none

def fieldsOf : GoType → List (String × Except String FieldTag × GoType)
  | .strct _ f _ _ _ _ _ _ _ => f
  | _ => []

/-- strings.Split for a single-character separator (schema.go only splits on
the characters colon and at-sign). -/
def goSplitAux (sep : Char) : List Char → List (List Char)
  | [] => [[]]
  | c :: cs =>
    match goSplitAux sep cs with
    | [] => [[c]]
    | h :: t => if c = sep then [] :: h :: t else (c :: h) :: t

def goSplit (s : String) (sep : Char) : List String :=
  (goSplitAux sep s.data).map (fun l => String.mk l)

/-- strings.HasSuffix. -/
def goHasSuffix (s suf : String) : Bool :=
  List.isSuffixOf suf.data s.data

/-- strings.TrimSuffix (only applied after a HasSuffix check in the source). -/
def goTrimSuffix (s suf : String) : String :=
  String.mk (s.data.take (s.data.length - suf.data.length))

/-- reflect MethodByName over the modelled method table. -/
def goMethodByName (t : GoType) (nm : String) : Option GoType :=
  ((methodsOf t).find? (fun p => p.1 = nm)).map (fun p => p.2)

/-- Association-list lookup with a default, the Go map read m at k. -/
def lookupD {α : Type} (m : List (String × α)) (k : String) (d : α) : α :=
  match m with
  | [] => d
  | (k', v) :: r => if k' = k then v else lookupD r k d

/-- Association-list lookup returning none for an absent key, the Go read of
a map whose value type is an interface (zero value nil). -/
def lookupOpt {α : Type} (m : List (String × α)) (k : String) : Option α :=
  match m with
  | [] => none
  | (k', v) :: r => if k' = k then some v else lookupOpt r k

/-- The wrapper-detection part of underlyingType, on a pointer-stripped type:
output capability first, then the input-capability contract (name ends in
Input, a matching To...Output method exists, its return type carries the
output capability). -/
def underlyingTypeCore (t : GoType) : Except Err (GoType × Bool) :=
  match outputElemOf t with
  | some e => .ok (e, true)
  | none =>
    if isInputOf t then
      let T0 := typeNameOf t
      if goHasSuffix T0 "Input" then
        let T := goTrimSuffix T0 "Input"
        match goMethodByName t ("To" ++ T ++ "Output") with
        | some outT =>
          match outputElemOf outT with
          | some e => .ok (e, true)
          | none =>
            .error (.fail ("return type " ++ outT.render ++ " of method To" ++
              T ++ "Output on type " ++ typeNameOf t ++ " does not implement Output"))
        | none =>
          .error (.fail (typeNameOf t ++ " is an input type, but does not have a To" ++
            T ++ "Output method"))
      else
        .error (.fail (T0 ++ " is an input type, but does not end in Input"))
    else
      .ok (t, false)

/-- underlyingType: find the non-inputty, non-ptr type of t.  Returns the
underlying type and whether t was an Inputty or Outputty type.  Pointers are
stripped before the capability checks and again on the result, as in the
source. -/
def underlyingType (t0 : GoType) : Except Err (GoType × Bool) :=
  match underlyingTypeCore (stripPtr t0) with
  | .ok (u, w) => .ok (stripPtr u, w)
  | .error e => .error e

/-- schema.TypeSpec, the fields schema.go writes: type, ref, plain, items
(arrays) and additionalProperties (maps).  Inductive because the last two are
recursive. -/
inductive TypeSpec where
  | mk (type : String) (ref : String) (plain : Bool)
      (items : Option TypeSpec) (additionalProperties : Option TypeSpec)

def TypeSpec.type : TypeSpec → String
  | .mk ty _ _ _ _ => ty

def TypeSpec.ref : TypeSpec → String
  | .mk _ r _ _ _ => r

def TypeSpec.plain : TypeSpec → Bool
  | .mk _ _ p _ _ => p

def TypeSpec.items : TypeSpec → Option TypeSpec
  | .mk _ _ _ i _ => i

def TypeSpec.additionalProperties : TypeSpec → Option TypeSpec
  | .mk _ _ _ _ a => a

/-- The zero value schema.TypeSpec in Go struct-literal returns. -/
def TypeSpec.empty : TypeSpec := .mk "" "" false none none

/-- schema.PropertySpec, the fields schema.go writes. -/
structure PropertySpec where
  typeSpec : TypeSpec
  secret : Bool
  replaceOnChanges : Bool
  description : String
  defaultVal : Option String
  defaultInfoEnvs : Option (List String)

/-- The Go property map, as an association list with overwrite-on-update. -/
abbrev PMap := List (String × PropertySpec)

/-- Map assignment m at k set to v: replace the existing binding or append. -/
def mset (m : PMap) (k : String) (v : PropertySpec) : PMap :=
  match m with
  | [] => [(k, v)]
  | (k', v') :: rest => if k' = k then (k, v) :: rest else (k', v') :: mset rest k v

/-- schema.ResourceSpec, the fields schema.go writes.  properties and
inputProperties are Option to keep the Go distinction between a nil map (the
failed collection pass) and an empty one. -/
structure ResourceSpec where
  properties : Option PMap
  description : String
  required : List String
  inputProperties : Option PMap
  requiredInputs : List String
  isComponent : Bool

/-- Prefix a frame onto a Go error; a panic unwinds unwrapped. -/
def wrapErr (pre : String) : Err → Err
  | .fail m => .fail (pre ++ m)
  | .fatal m => .fatal m

/-- resourceReferenceToken.  Returns the triple of the Go signature:
the TypeSpec, the took-a-branch flag, and the error slot (an Err.fatal in the
error slot models a contract.Assertf panic). -/
def resourceReferenceToken (t : GoType) (extTag : String) (allowMissingExtType : Bool) :
    TypeSpec × Bool × Option Err :=
  match schResOf t with
  | some (tk, e) =>
    (.mk "" ("#/resources/" ++ tk) false none none, true, e.map .fail)
  | none =>
    if pulumiResOf t then
      if extTag = "" then
        if allowMissingExtType then (TypeSpec.empty, true, none)
        else (TypeSpec.empty, true,
          some (.fail ("missing type= tag on foreign resource " ++ t.render)))
      else
        let parts := goSplit extTag ':'
        if parts.length = 3 then
          let head := goSplit (parts.getD 0 "") '@'
          if head.length = 2 then
            let pkgName := head.getD 0 ""
            let pkgVersion := head.getD 1 ""
            let md := parts.getD 1 ""
            let nm := parts.getD 2 ""
            (.mk "" ("/" ++ pkgName ++ "/" ++ pkgVersion ++ "/schema.json#/resources/" ++
              pkgName ++ ":" ++ md ++ ":" ++ nm) false none none, true, none)
          else (TypeSpec.empty, true,
            some (.fatal ("invalid type= head; got " ++ parts.getD 0 "")))
        else (TypeSpec.empty, true,
          some (.fatal ("invalid type= tag; got " ++ extTag)))
    else (TypeSpec.empty, false, none)

/-- structReferenceToken: a struct that does not implement pulumi.Output gets
its self-registration token (embedded in the type, see GoType.strct). -/
def structReferenceToken (t : GoType) : String × Bool × Option Err :=
  match t with
  | .strct _ _ _ _ outputElem _ _ (tk, e) _ =>
    if outputElem.isSome then ("", false, none)
    else (tk, true, e.map .fail)
  | _ => ("", false, none)

/-- serializeTypeAsPropertyType.  Fuel bounds the element recursion depth; the
source recursion is finite on Go's finite type graphs, and every theorem below
is conditional on a successful (in-fuel) run or universally quantified over
the fuel. -/
def serializeTypeAsPropertyType : Nat → GoType → Bool → String → Except Err TypeSpec
  | 0, _, _, _ => .error (.fail "schema type recursion limit exceeded")
  | Nat.succ fuel, t0, indicatePlain, extType =>
    let t := stripPtr t0
    match isEnum t with
    | some tok => .ok (.mk "" ("#/types/" ++ tok) false none none)
    | none =>
      match resourceReferenceToken t extType false with
      | (_, true, some e) => .error e
      | (tk, true, none) => .ok tk
      | (_, false, _) =>
        match structReferenceToken t with
        | (_, true, some e) => .error e
        | (tk2, true, none) => .ok (.mk "" ("#/types/" ++ tk2) false none none)
        | (_, false, _) =>
          match underlyingType t with
          | .error e => .error e
          | .ok (u, inputy) =>
            match enumBase u with
            | .mp kt vt =>
              match enumBase kt with
              | .str =>
                match serializeTypeAsPropertyType fuel vt indicatePlain extType with
                | .error e => .error e
                | .ok el => .ok (.mk "object" "" false none (some el))
              | _ => .error (.fail ("map keys must be strings, found " ++ kt.render))
            | .slice et =>
              match serializeTypeAsPropertyType fuel et indicatePlain extType with
              | .error e => .error e
              | .ok el => .ok (.mk "array" "" false (some el) none)
            | .array et =>
              match serializeTypeAsPropertyType fuel et indicatePlain extType with
              | .error e => .error e
              | .ok el => .ok (.mk "array" "" false (some el) none)
            | .bool => .ok (.mk "boolean" "" (!inputy && indicatePlain) none none)
            | .int => .ok (.mk "integer" "" (!inputy && indicatePlain) none none)
            | .int64 => .ok (.mk "integer" "" (!inputy && indicatePlain) none none)
            | .int32 => .ok (.mk "integer" "" (!inputy && indicatePlain) none none)
            | .float64 => .ok (.mk "number" "" (!inputy && indicatePlain) none none)
            | .str => .ok (.mk "string" "" (!inputy && indicatePlain) none none)
            | .iface => .ok (.mk "" "pulumi.json#/Any" false none none)
            | u' => .error (.fail ("unknown type: " ++ u'.render))

/-- getAnnotated: probe the Annotated hook on the base type (the pointer
reinflation in the source only serves to hand the dynamic interface check a
pointer value; the capability itself lives on the base type here), returning
empty maps when the hook is absent. -/
def getAnnotated (t : GoType) : Annotator :=
  match annotsOf (stripPtr t) with
  | some a => a
  | none => ⟨[], [], []⟩

/-- The PropertySpec assembled for one field. -/
def mkPropertySpec (ann : Annotator) (tags : FieldTag) (serialized : TypeSpec) :
    PropertySpec :=
  { typeSpec := serialized
    secret := tags.secret
    replaceOnChanges := tags.replaceOnChanges
    description := lookupD ann.descriptions tags.name ""
    defaultVal := lookupOpt ann.defaults tags.name
    defaultInfoEnvs :=
      match lookupD ann.defaultEnvs tags.name [] with
      | [] => none
      | envs => some envs }

/-- One iteration of the propertyListFromType field loop: parse the tag, skip
internal fields, walk the pointer-stripped field type, and build the spec.
Returns none for a skipped field. -/
def fieldStep (fuel : Nat) (typName : String) (ann : Annotator) (indicatePlain : Bool)
    (f : String × Except String FieldTag × GoType) :
    Except Err (Option (FieldTag × PropertySpec)) :=
  match f with
  | (fname, .error e, _) =>
    .error (.fail ("invalid fields " ++ fname ++ " on " ++ typName ++ ": " ++ e))
  | (fname, .ok tags, ftype) =>
    if tags.internal then .ok none
    else
      match serializeTypeAsPropertyType fuel (stripPtr ftype) indicatePlain tags.externalType with
      | .error e =>
        .error (wrapErr ("invalid type " ++ (stripPtr ftype).render ++ " on " ++
          typName ++ "." ++ fname ++ ": ") e)
      | .ok serialized => .ok (some (tags, mkPropertySpec ann tags serialized))

/-- The field loop of propertyListFromType.  A field error returns nil, nil,
err immediately, exactly as the source does. -/
def plftLoop (fuel : Nat) (typName : String) (ann : Annotator) (indicatePlain : Bool) :
    List (String × Except String FieldTag × GoType) → PMap → List String →
    Option PMap × List String × Option Err
  | [], props, required => (some props, required, none)
  | f :: fs, props, required =>
    match fieldStep fuel typName ann indicatePlain f with
    | .error e => (none, [], some e)
    | .ok none => plftLoop fuel typName ann indicatePlain fs props required
    | .ok (some (tags, spec)) =>
      plftLoop fuel typName ann indicatePlain fs (mset props tags.name spec)
        (if tags.optional then required else required ++ [tags.name])

/-- propertyListFromType.  NumField on a non-struct type panics in reflect,
modelled as a fatal error. -/
def propertyListFromType (fuel : Nat) (typ0 : GoType) (indicatePlain : Bool) :
    Option PMap × List String × Option Err :=
  let typ := stripPtr typ0
  match typ with
  | .strct _ fields _ _ _ _ _ _ _ =>
    plftLoop fuel typ.render (getAnnotated typ) indicatePlain fields [] []
  | _ => (none, [], some (.fatal ("reflect: NumField of non-struct type " ++ typ.render)))

/-- The wrapped message list one collection pass contributes to the
aggregated error (fmt.Errorf could-not-serialize frame); empty when the pass
returned no error. -/
def passErrList (pre : String) (t : GoType) : Option Err → List String
  | none => []
  | some (.fail m) => [pre ++ t.render ++ ": " ++ m]
  | some (.fatal _) => []

/-- getResourceSchema over resource type R, input type I, output type O.  The
outer Except models a panic unwinding out of a collection pass; on the normal
path it returns the ResourceSpec together with the aggregated multierror
message list. -/
def getResourceSchema (fuel : Nat) (R I O : GoType) (isComponent : Bool) :
    Except String (ResourceSpec × List String) :=
  let descriptions := getAnnotated R
  match propertyListFromType fuel (.ptr O) isComponent with
  | (_, _, some (.fatal m)) => .error m
  | (properties, required, errO) =>
    match propertyListFromType fuel (.ptr I) isComponent with
    | (_, _, some (.fatal m)) => .error m
    | (inputProperties, requiredInputs, errI) =>
      .ok ({ properties := properties
             description := lookupD descriptions.descriptions "" ""
             required := required
             inputProperties := inputProperties
             requiredInputs := requiredInputs
             isComponent := isComponent },
        passErrList "could not serialize output type " O errO ++
          passErrList "could not serialize input type " I errI)

/-- A chain of n pointer layers around t. -/
def ptrN : Nat → GoType → GoType
  | 0, t => t
  | n + 1, t => .ptr (ptrN n t)

/-- Key list of a property map. -/
def keysOf (m : PMap) : List String := m.map Prod.fst

/-- The exposed field names of a struct field list: the tag names of the
fields whose tag parses and is not marked internal. -/
def exposedNames : List (String × Except String FieldTag × GoType) → List String
  | [] => []
  | (_, .ok tg, _) :: fs =>
    if tg.internal then exposedNames fs else tg.name :: exposedNames fs
  | (_, .error _, _) :: fs => exposedNames fs

/-- Fixture: a generated output wrapper carrying a string element. -/
def sampleOutput : GoType :=
  .strct "SampleOutput" [] none false (some .str) false [] ("", none) none

/-- Fixture: a generated input wrapper convertible to SampleOutput. -/
def sampleInput : GoType :=
  .strct "SampleInput" [] none false none true [("ToSampleOutput", sampleOutput)]
    ("", none) none

/-- Fixture: an output wrapper whose element type is itself an output
wrapper, a legal Go type shape. -/
def nestedOutput : GoType :=
  .strct "NestedOutput" [] none false (some sampleOutput) false [] ("", none) none

/-- Fixture: an external resource, implementing pulumi.Resource but not
sch.Resource. -/
def extRes : GoType := .strct "ExtRes" [] none true none false [] ("", none) none

/-- Fixture fields. -/
def fldOut : String × Except String FieldTag × GoType :=
  ("Out", .ok ⟨"out", false, true, false, false, ""⟩, .str)

def fldOpt : String × Except String FieldTag × GoType :=
  ("Opt", .ok ⟨"opt", true, false, false, false, ""⟩, .bool)

def fldInternal : String × Except String FieldTag × GoType :=
  ("Hidden", .ok ⟨"hidden", false, false, false, true, ""⟩, .uint8)

def fldBadTag : String × Except String FieldTag × GoType :=
  ("Bad", .error "malformed tag", .int)

def fldBadTag2 : String × Except String FieldTag × GoType :=
  ("Bad2", .error "second malformed tag", .int)

/-- Fixture: a well-formed output struct type. -/
def outType : GoType := .strct "OutType" [fldOut] none false none false [] ("", none) none

/-- Fixture: an input struct type whose second field has a malformed tag. -/
def inBadType : GoType :=
  .strct "InBadType" [fldOut, fldBadTag] none false none false [] ("", none) none

/-- Fixture: a good field followed by two fields with malformed tags. -/
def c1Type : GoType :=
  .strct "C1Type" [fldOut, fldBadTag, fldBadTag2] none false none false [] ("", none) none

/-- Fixture: exposed, optional and internal fields together (the internal one
of a kind the walker cannot serialize). -/
def c8Type : GoType :=
  .strct "C8Type" [fldOut, fldOpt, fldInternal] none false none false [] ("", none) none

/-- Fixture: a resource type with an annotated whole-type description. -/
def resAnn : GoType :=
  .strct "Res" [] none false none false [] ("", none)
    (some ⟨[("", "the resource description")], [], []⟩)

/-- Fixture: an input type with its own whole-type description. -/
def inAnn : GoType :=
  .strct "InAnn" [fldOut] none false none false [] ("", none)
    (some ⟨[("", "the input description")], [], []⟩)

/-- Fixture: an output type with its own whole-type description. -/
def outAnn : GoType :=
  .strct "OutAnn" [fldOut] none false none false [] ("", none)
    (some ⟨[("", "the output description")], [], []⟩)

/-- Fixture: the PropertySpec the collector derives for fldOut under
plain-intent true, respectively false, with no annotations. -/
def specOutTrue : PropertySpec := ⟨.mk "string" "" true none none, true, false, "", none, none⟩

def specOutFalse : PropertySpec := ⟨.mk "string" "" false none none, true, false, "", none, none⟩

/-- Fixture: the PropertySpec the collector derives for fldOpt under
plain-intent true. -/
def specOptTrue : PropertySpec := ⟨.mk "boolean" "" true none none, false, false, "", none, none⟩

/-- Fixture: the ResourceSpec assembled from resAnn, inBadType, outType. -/
def aggSpec : ResourceSpec :=
  { properties := some [("out", specOutFalse)]
    description := "the resource description"
    required := ["out"]
    inputProperties := none
    requiredInputs := []
    isComponent := false }

/-- Fixture: the ResourceSpec assembled from resAnn, inAnn, outAnn. -/
def descSpec : ResourceSpec :=
  { properties := some [("out", specOutFalse)]
    description := "the resource description"
    required := ["out"]
    inputProperties := some [("out", specOutFalse)]
    requiredInputs := ["out"]
    isComponent := false }

theorem stripPtr_stripPtr : ∀ t : GoType, stripPtr (stripPtr t) = stripPtr t
  | .ptr e => by simpa [stripPtr] using stripPtr_stripPtr e
  | .bool => rfl | .int => rfl | .int8 => rfl | .int16 => rfl | .int32 => rfl
  | .int64 => rfl | .uint => rfl | .uint8 => rfl | .uint16 => rfl
  | .uint32 => rfl | .uint64 => rfl | .float32 => rfl | .float64 => rfl
  | .str => rfl | .iface => rfl
  | .mp _ _ => rfl | .slice _ => rfl | .array _ => rfl
  | .enum _ _ _ => rfl | .strct _ _ _ _ _ _ _ _ _ => rfl

theorem underlyingType_strip (t : GoType) :
    underlyingType (stripPtr t) = underlyingType t := by
  unfold underlyingType
  rw [stripPtr_stripPtr]

theorem underlyingType_stripped (t u : GoType) (w : Bool)
    (h : underlyingType t = .ok (u, w)) : stripPtr u = u := by
  unfold underlyingType at h
  split at h
  · rename_i u' w' heq
    injection h with h
    injection h with h1 h2
    subst h1
    exact stripPtr_stripPtr u'
  · exact Except.noConfusion h

theorem serialize_ptr_step (fuel : Nat) (t : GoType) (ip : Bool) (ext : String) :
    serializeTypeAsPropertyType fuel (.ptr t) ip ext =
      serializeTypeAsPropertyType fuel t ip ext := by
  cases fuel <;> rfl

/-- C9: the walker is invariant under pointer indirection: for every type t,
plain-intent flag and external-locator tag, walking any chain of pointers to
t gives exactly the same result (value or error) as walking t, at every
recursion budget. -/
theorem serialize_ptr_invariant (fuel n : Nat) (t : GoType) (ip : Bool) (ext : String) :
    serializeTypeAsPropertyType fuel (ptrN n t) ip ext =
      serializeTypeAsPropertyType fuel t ip ext := by
  induction n with
  | zero => rfl
  | succ n ih => rw [ptrN, serialize_ptr_step, ih]

/-- C4 (amended): the unwrapped base kinds bool, int, int32, int64, float64
and string serialize to the matching primitive spec with the plain-intent
flag, but the remaining integer widths (int8, int16 and all unsigned widths)
and float32 fall into the default branch and yield an unknown-type error. -/
theorem serialize_primitive_kinds (fuel : Nat) (ip : Bool) (ext : String) :
    serializeTypeAsPropertyType (fuel + 1) .bool ip ext = .ok (.mk "boolean" "" ip none none) ∧
    serializeTypeAsPropertyType (fuel + 1) .int ip ext = .ok (.mk "integer" "" ip none none) ∧
    serializeTypeAsPropertyType (fuel + 1) .int32 ip ext = .ok (.mk "integer" "" ip none none) ∧
    serializeTypeAsPropertyType (fuel + 1) .int64 ip ext = .ok (.mk "integer" "" ip none none) ∧
    serializeTypeAsPropertyType (fuel + 1) .float64 ip ext = .ok (.mk "number" "" ip none none) ∧
    serializeTypeAsPropertyType (fuel + 1) .str ip ext = .ok (.mk "string" "" ip none none) ∧
    serializeTypeAsPropertyType (fuel + 1) .int8 ip ext = .error (.fail "unknown type: int8") ∧
    serializeTypeAsPropertyType (fuel + 1) .int16 ip ext = .error (.fail "unknown type: int16") ∧
    serializeTypeAsPropertyType (fuel + 1) .uint ip ext = .error (.fail "unknown type: uint") ∧
    serializeTypeAsPropertyType (fuel + 1) .uint8 ip ext = .error (.fail "unknown type: uint8") ∧
    serializeTypeAsPropertyType (fuel + 1) .uint16 ip ext = .error (.fail "unknown type: uint16") ∧
    serializeTypeAsPropertyType (fuel + 1) .uint32 ip ext = .error (.fail "unknown type: uint32") ∧
    serializeTypeAsPropertyType (fuel + 1) .uint64 ip ext = .error (.fail "unknown type: uint64") ∧
    serializeTypeAsPropertyType (fuel + 1) .float32 ip ext = .error (.fail "unknown type: float32") :=
  ⟨rfl, rfl, rfl, rfl, rfl, rfl, rfl, rfl, rfl, rfl, rfl, rfl, rfl, rfl⟩

/-- C4 counterexample: the claim says every integer width, signed or
unsigned, and every floating-point kind yields a matching primitive spec, but
an unsigned 8-bit base type (and a 32-bit float) yields an unsupported-kind
error instead. -/
theorem serialize_uint8_errors :
    serializeTypeAsPropertyType 1 .uint8 true "" = .error (.fail "unknown type: uint8") ∧
    serializeTypeAsPropertyType 1 .float32 true "" = .error (.fail "unknown type: float32") :=
  ⟨rfl, rfl⟩

/-- C6: a field type with the generic is-a-resource capability but without
the self-describing-resource capability and with no external-locator tag
yields the missing-type-tag error, except in permissive mode where the
classification is empty but successful. -/
theorem resourceReferenceToken_missing_tag (t : GoType)
    (hs : schResOf t = none) (hp : pulumiResOf t = true) :
    resourceReferenceToken t "" false =
      (TypeSpec.empty, true,
        some (.fail ("missing type= tag on foreign resource " ++ t.render))) ∧
    resourceReferenceToken t "" true = (TypeSpec.empty, true, none) := by
  constructor <;> simp [resourceReferenceToken, hs, hp]

/-- Witness for resourceReferenceToken_missing_tag at a concrete external
resource type. -/
theorem resourceReferenceToken_missing_tag_witness :
    resourceReferenceToken extRes "" false =
      (TypeSpec.empty, true, some (.fail "missing type= tag on foreign resource ExtRes")) ∧
    resourceReferenceToken extRes "" true = (TypeSpec.empty, true, none) :=
  resourceReferenceToken_missing_tag extRes rfl rfl

/-- C5 counterexample: wrapper resolution is not idempotent on every type.
For an output wrapper whose element type is itself an output wrapper (a legal
Go shape, since ElementType may return any type), the first resolution yields
the inner wrapper with wrapped=true, and resolving that result unwraps again
and reports wrapped=true, not the same type with wrapped=false. -/
theorem underlyingType_not_idempotent :
    underlyingType nestedOutput = .ok (sampleOutput, true) ∧
    underlyingType sampleOutput = .ok (.str, true) ∧
    underlyingType sampleOutput ≠ .ok (sampleOutput, false) := by
  refine ⟨rfl, rfl, ?_⟩
  rw [show underlyingType sampleOutput = .ok (.str, true) from rfl]
  simp [sampleOutput]

/-- C5 (amended): wrapper resolution is idempotent whenever the resolved base
type itself carries neither the output nor the input capability (true of
every primitive and container base, in particular the pointer-wrapped,
input-wrapped string of the spec, but not of a nested wrapper): resolving the
result again succeeds and returns the same type with wrapped=false. -/
theorem underlyingType_idem (t u : GoType) (w : Bool)
    (h : underlyingType t = .ok (u, w))
    (hout : outputElemOf u = none) (hin : isInputOf u = false) :
    underlyingType u = .ok (u, false) := by
  have hs : stripPtr u = u := underlyingType_stripped t u w h
  unfold underlyingType underlyingTypeCore
  rw [hs, hout, hin]
  simp [hs]

/-- Witness for underlyingType_idem: the pointer-wrapped, input-wrapped
string type of the spec resolves to the string base, and resolving that
result again is idempotent. -/
theorem underlyingType_idem_witness :
    underlyingType (.ptr sampleInput) = .ok (.str, true) ∧
    underlyingType GoType.str = .ok (.str, false) :=
  ⟨rfl, underlyingType_idem (.ptr sampleInput) .str true rfl rfl rfl⟩

/-- C7: for an external-resource field with a locator tag present, the
classification asserts the locator shape: a tag that does not split into
exactly three colon-separated parts, or whose first part does not split into
exactly one at-sign-separated pair, takes the assertion (panic) branch and
returns no well-formed reference; a well-formed package at version, module,
name locator passes both assertions and yields the encoded ResourceRef. -/
theorem resourceReferenceToken_locator (t : GoType) (ext : String) (am : Bool)
    (hs : schResOf t = none) (hp : pulumiResOf t = true) (hne : ext ≠ "") :
    ((goSplit ext ':').length ≠ 3 →
      resourceReferenceToken t ext am =
        (TypeSpec.empty, true, some (.fatal ("invalid type= tag; got " ++ ext)))) ∧
    (∀ p0 md nm, goSplit ext ':' = [p0, md, nm] → (goSplit p0 '@').length ≠ 2 →
      resourceReferenceToken t ext am =
        (TypeSpec.empty, true, some (.fatal ("invalid type= head; got " ++ p0)))) ∧
    (∀ p0 md nm pkg ver, goSplit ext ':' = [p0, md, nm] → goSplit p0 '@' = [pkg, ver] →
      resourceReferenceToken t ext am =
        (.mk "" ("/" ++ pkg ++ "/" ++ ver ++ "/schema.json#/resources/" ++
          pkg ++ ":" ++ md ++ ":" ++ nm) false none none, true, none)) := by
  refine ⟨?_, ?_, ?_⟩
  · intro hlen
    simp [resourceReferenceToken, hs, hp, hne, hlen]
  · intro p0 md nm hsplit hhead
    simp [resourceReferenceToken, hs, hp, hne, hsplit, hhead]
  · intro p0 md nm pkg ver hsplit hhead
    simp [resourceReferenceToken, hs, hp, hne, hsplit, hhead]

/-- Witness for resourceReferenceToken_locator: a malformed tag and a
malformed head take the assertion branch; a well-formed locator yields the
encoded external reference. -/
theorem resourceReferenceToken_locator_witness :
    resourceReferenceToken extRes "x" false =
      (TypeSpec.empty, true, some (.fatal "invalid type= tag; got x")) ∧
    resourceReferenceToken extRes "a@b@c:m:n" false =
      (TypeSpec.empty, true, some (.fatal "invalid type= head; got a@b@c")) ∧
    resourceReferenceToken extRes "a@1:m:n" false =
      (.mk "" "/a/1/schema.json#/resources/a:m:n" false none none, true, none) := by
  refine ⟨?_, ?_, ?_⟩
  · exact (resourceReferenceToken_locator extRes "x" false rfl rfl (by decide)).1 (by decide)
  · exact (resourceReferenceToken_locator extRes "a@b@c:m:n" false rfl rfl (by decide)).2.1
      "a@b@c" "m" "n" (by decide) (by decide)
  · exact (resourceReferenceToken_locator extRes "a@1:m:n" false rfl rfl (by decide)).2.2
      "a@1" "m" "n" "a" "1" (by decide) (by decide)

/-- C2: for every resource (R, I, O, component flag), any error returned by
the output-type pass and any error returned by the input-type pass are both
appended into the single aggregated error value, and the assembled
ResourceSpec still carries exactly the property maps and required lists each
pass produced, so a defect on one side does not suppress the schema of the
other (a panic, as opposed to a returned error, unwinds instead and is
excluded by the two no-fatal hypotheses). -/
theorem getResourceSchema_aggregates
    (fuel : Nat) (R I O : GoType) (c : Bool)
    (pO pI : Option PMap) (rO rI : List String) (eO eI : Option Err)
    (hO : propertyListFromType fuel (.ptr O) c = (pO, rO, eO))
    (hI : propertyListFromType fuel (.ptr I) c = (pI, rI, eI))
    (hfO : ∀ m, eO ≠ some (.fatal m)) (hfI : ∀ m, eI ≠ some (.fatal m)) :
    getResourceSchema fuel R I O c =
      .ok ({ properties := pO
             description := lookupD (getAnnotated R).descriptions "" ""
             required := rO
             inputProperties := pI
             requiredInputs := rI
             isComponent := c },
        passErrList "could not serialize output type " O eO ++
          passErrList "could not serialize input type " I eI) := by
  unfold getResourceSchema
  rw [hO, hI]
  rcases eO with _ | eo
  · rcases eI with _ | ei
    · rfl
    · rcases ei with m | m
      · rfl
      · exact absurd rfl (hfI m)
  · rcases eo with m | m
    · rcases eI with _ | ei
      · rfl
      · rcases ei with m' | m'
        · rfl
        · exact absurd rfl (hfI m')
    · exact absurd rfl (hfO m)

/-- Witness for getResourceSchema_aggregates: a valid output type and an
input type with one malformed field tag assemble into a schema that keeps the
output properties while reporting the input error. -/
theorem getResourceSchema_aggregates_witness :
    getResourceSchema 3 resAnn inBadType outType false =
      .ok (aggSpec,
        ["could not serialize input type InBadType: invalid fields Bad on InBadType: malformed tag"]) :=
  getResourceSchema_aggregates 3 resAnn inBadType outType false
    (some [("out", specOutFalse)]) none ["out"] [] none
    (some (.fail "invalid fields Bad on InBadType: malformed tag"))
    rfl rfl
    (fun m h => Option.noConfusion h)
    (fun m h => by injection h with h2; exact Err.noConfusion h2)

/-- C10: the whole-type description of the assembled ResourceSchema is the
empty-key entry of the resource type R's own metadata, independent of I and O
and of whether either collection pass failed, and it is the empty string when
R exposes no annotation hook. -/
theorem getResourceSchema_description (fuel : Nat) (R I O : GoType) (c : Bool)
    (spec : ResourceSpec) (errs : List String)
    (h : getResourceSchema fuel R I O c = .ok (spec, errs)) :
    spec.description = lookupD (getAnnotated R).descriptions "" "" ∧
    (annotsOf (stripPtr R) = none → spec.description = "") := by
  have hd : spec.description = lookupD (getAnnotated R).descriptions "" "" := by
    unfold getResourceSchema at h
    split at h
    · exact Except.noConfusion h
    · split at h
      · exact Except.noConfusion h
      · injection h with h'
        injection h' with h1 h2
        subst h1
        rfl
  refine ⟨hd, ?_⟩
  intro ha
  rw [hd]
  simp [getAnnotated, ha, lookupD]

/-- Witness for getResourceSchema_description: R, I and O each carry their
own whole-type description, the input pass and output pass both succeed, and
the assembled description is R's, not I's or O's. -/
theorem getResourceSchema_description_witness :
    getResourceSchema 3 resAnn inAnn outAnn false = .ok (descSpec, []) ∧
    descSpec.description = "the resource description" :=
  ⟨rfl,
    ((getResourceSchema_description 3 resAnn inAnn outAnn false descSpec [] rfl).1).trans rfl⟩

theorem resourceReferenceToken_shape (t : GoType) (e : String) (a : Bool)
    (sp : TypeSpec) (b : Bool) (er : Option Err)
    (h : resourceReferenceToken t e a = (sp, b, er)) :
    sp.type = "" ∧ sp.plain = false := by
  unfold resourceReferenceToken at h
  repeat' (first | (split at h) | (simp only [] at h))
  all_goals (injection h with h1 h2; subst h1; exact ⟨rfl, rfl⟩)

/-- C3 (amended): a primitive result of the walker carries
Plain = plain-intent AND NOT wrapped, but a container result (array or map)
always carries Plain = false regardless of the plain intent and the wrapped
flag; only the element specs nested inside it receive the plain intent. -/
theorem serialize_plain_flag (fuel : Nat) (t : GoType) (ip : Bool) (ext : String)
    (ts : TypeSpec)
    (h : serializeTypeAsPropertyType fuel t ip ext = .ok ts) :
    ((ts.type = "boolean" ∨ ts.type = "integer" ∨ ts.type = "number" ∨ ts.type = "string") →
      ∃ u w, underlyingType t = .ok (u, w) ∧ ts.plain = (!w && ip)) ∧
    ((ts.type = "object" ∨ ts.type = "array") → ts.plain = false) := by
  cases fuel with
  | zero => exact Except.noConfusion h
  | succ fuel =>
    simp only [serializeTypeAsPropertyType] at h
    repeat' split at h
    all_goals try exact Except.noConfusion h
    all_goals (injection h with h1; subst h1)
    all_goals refine ⟨fun hv => ?_, fun hv => ?_⟩
    all_goals try
      (rename_i tk heq
       rcases hshape : resourceReferenceToken (stripPtr t) ext false with ⟨sp, b2, er⟩
       rw [hshape] at heq
       injection heq with heq1 heq2
       subst heq1
       rcases resourceReferenceToken_shape _ _ _ _ _ _ hshape with ⟨htype, hplain⟩
       rw [htype] at hv)
    all_goals try (simp only [TypeSpec.type, TypeSpec.plain] at hv ⊢)
    all_goals try exact absurd hv (by decide)
    all_goals exact ⟨_, _, by rw [← underlyingType_strip]; assumption, rfl⟩

/-- C3 counterexample: walking a map type under plain-intent true with no
wrapper involved (underlyingType reports wrapped=false) yields a container
spec whose Plain flag is false, not plain-intent AND NOT wrapped = true; the
source never sets Plain on the object and array branches. -/
theorem serialize_map_plain_false :
    serializeTypeAsPropertyType 2 (GoType.mp .str .bool) true "" =
      .ok (.mk "object" "" false none (some (.mk "boolean" "" true none none))) ∧
    underlyingType (GoType.mp .str .bool) = .ok (GoType.mp .str .bool, false) ∧
    (TypeSpec.mk "object" "" false none
        (some (.mk "boolean" "" true none none))).plain ≠ (!false && true) :=
  ⟨rfl, rfl, by decide⟩

/-- Witness for serialize_plain_flag: walking the bare string type under
plain-intent true succeeds with a primitive spec, and the theorem produces
the unwrapped base and its Plain equation for it. -/
theorem serialize_plain_flag_witness :
    ∃ u w, underlyingType GoType.str = .ok (u, w) ∧
      (TypeSpec.mk "string" "" true none none).plain = (!w && true) :=
  (serialize_plain_flag 1 GoType.str true "" (.mk "string" "" true none none) rfl).1
    (Or.inr (Or.inr (Or.inr rfl)))

theorem fieldStep_ok_none (fuel : Nat) (tn : String) (ann : Annotator) (ip : Bool)
    (f : String × Except String FieldTag × GoType)
    (h : fieldStep fuel tn ann ip f = .ok none) :
    ∃ fn tg ty, f = (fn, .ok tg, ty) ∧ tg.internal = true := by
  obtain ⟨fn, tg, ty⟩ := f
  cases tg with
  | error e => simp [fieldStep] at h
  | ok tg =>
    by_cases hint : tg.internal = true
    · exact ⟨fn, tg, ty, rfl, hint⟩
    · simp only [fieldStep, if_neg hint] at h
      split at h
      · exact Except.noConfusion h
      · injection h with h1
        exact Option.noConfusion h1

theorem fieldStep_ok_some (fuel : Nat) (tn : String) (ann : Annotator) (ip : Bool)
    (f : String × Except String FieldTag × GoType) (tags : FieldTag) (spec : PropertySpec)
    (h : fieldStep fuel tn ann ip f = .ok (some (tags, spec))) :
    ∃ fn ty, f = (fn, .ok tags, ty) ∧ tags.internal = false := by
  obtain ⟨fn, tg, ty⟩ := f
  cases tg with
  | error e => simp [fieldStep] at h
  | ok tg =>
    by_cases hint : tg.internal = true
    · simp only [fieldStep, if_pos hint] at h
      injection h with h1
      exact Option.noConfusion h1
    · simp only [fieldStep, if_neg hint] at h
      split at h
      · exact Except.noConfusion h
      · injection h with h1
        injection h1 with h2
        injection h2 with h3 h4
        subst h3
        exact ⟨fn, ty, rfl, by simpa using hint⟩

theorem keysOf_mset (m : PMap) (k : String) (v : PropertySpec) (k' : String) :
    k' ∈ keysOf (mset m k v) ↔ k' ∈ keysOf m ∨ k' = k := by
  induction m with
  | nil => simp [mset, keysOf]
  | cons p rest ih =>
    obtain ⟨a, b⟩ := p
    by_cases hak : a = k
    · subst hak
      have hm : mset ((a, b) :: rest) a v = (a, v) :: rest := by
        simp [mset]
      rw [hm]
      simp only [keysOf, List.map_cons, List.mem_cons]
      tauto
    · have hm : mset ((a, b) :: rest) k v = (a, b) :: mset rest k v := by
        simp [mset, hak]
      rw [hm]
      simp only [keysOf, List.map_cons, List.mem_cons] at *
      tauto

theorem plftLoop_inv (fuel : Nat) (tn : String) (ann : Annotator) (ip : Bool) :
    ∀ (fields : List (String × Except String FieldTag × GoType)) (props0 : PMap)
      (req0 : List String) (props : PMap) (req : List String),
      plftLoop fuel tn ann ip fields props0 req0 = (some props, req, none) →
      (∀ k, k ∈ keysOf props ↔ (k ∈ keysOf props0 ∨ k ∈ exposedNames fields)) ∧
      (∀ k, k ∈ req → (k ∈ req0 ∨ k ∈ exposedNames fields)) := by
  intro fields
  induction fields with
  | nil =>
    intro props0 req0 props req h
    simp only [plftLoop] at h
    injection h with h1 h23
    injection h23 with h2 h3
    injection h1 with h1
    subst h1
    subst h2
    constructor
    · intro k
      simp [exposedNames]
    · intro k hk
      exact Or.inl hk
  | cons f fs ih =>
    intro props0 req0 props req h
    rw [plftLoop] at h
    split at h
    · injection h with h1 h23
      exact Option.noConfusion h1
    · rename_i heq
      obtain ⟨fn, tg, ty, hf, hint⟩ := fieldStep_ok_none fuel tn ann ip f heq
      subst hf
      have hexp : exposedNames ((fn, Except.ok tg, ty) :: fs) = exposedNames fs := by
        simp [exposedNames, hint]
      obtain ⟨hk, hr⟩ := ih props0 req0 props req h
      rw [hexp]
      exact ⟨hk, hr⟩
    · rename_i tags spec heq
      obtain ⟨fn, ty, hf, hint⟩ := fieldStep_ok_some fuel tn ann ip f tags spec heq
      subst hf
      have hexp : exposedNames ((fn, Except.ok tags, ty) :: fs) =
          tags.name :: exposedNames fs := by
        simp [exposedNames, hint]
      obtain ⟨hk, hr⟩ := ih _ _ props req h
      rw [hexp]
      constructor
      · intro k
        rw [hk k, keysOf_mset]
        simp only [List.mem_cons]
        tauto
      · intro k hkk
        rcases hr k hkk with h1 | h2
        · by_cases hopt : tags.optional = true
          · rw [if_pos hopt] at h1
            exact Or.inl h1
          · rw [if_neg hopt] at h1
            rcases List.mem_append.mp h1 with ha | hb
            · exact Or.inl ha
            · exact Or.inr (List.mem_cons.mpr (Or.inl (List.mem_singleton.mp hb)))
        · exact Or.inr (List.mem_cons.mpr (Or.inr h2))

/-- C8: on every struct type on which field collection succeeds, the property
map key set equals the set of exposed (non-internal) field tag names, the
required list is a subset of that key set, and a field whose tag is marked
internal contributes nothing: its name appears in neither the map nor the
required list (unless another exposed field shares the name), regardless of
its declared type. -/
theorem propertyListFromType_invariants (fuel : Nat) (nm : String)
    (fields : List (String × Except String FieldTag × GoType))
    (s : Option (String × Option String)) (p : Bool) (o : Option GoType) (i : Bool)
    (m : List (String × GoType)) (tk : String × Option String) (an : Option Annotator)
    (ip : Bool) (props : PMap) (req : List String)
    (h : propertyListFromType fuel (.strct nm fields s p o i m tk an) ip =
      (some props, req, none)) :
    (∀ k, k ∈ keysOf props ↔ k ∈ exposedNames fields) ∧
    (∀ k, k ∈ req → k ∈ keysOf props) ∧
    (∀ fn tg ty, (fn, Except.ok tg, ty) ∈ fields → tg.internal = true →
      tg.name ∉ exposedNames fields → tg.name ∉ keysOf props ∧ tg.name ∉ req) := by
  have h' : plftLoop fuel (GoType.render (.strct nm fields s p o i m tk an))
      (getAnnotated (.strct nm fields s p o i m tk an)) ip fields [] [] =
      (some props, req, none) := h
  obtain ⟨hk, hr⟩ := plftLoop_inv fuel _ _ ip fields [] [] props req h'
  have hke : ∀ k, k ∈ keysOf props ↔ k ∈ exposedNames fields := by
    intro k
    rw [hk k]
    simp [keysOf]
  refine ⟨hke, ?_, ?_⟩
  · intro k hkk
    rcases hr k hkk with h1 | h2
    · simp at h1
    · exact (hke k).mpr h2
  · intro fn tg ty hmem hint hnot
    constructor
    · intro hin
      exact hnot ((hke _).mp hin)
    · intro hin
      rcases hr _ hin with h1 | h2
      · simp at h1
      · exact hnot h2

/-- Witness for propertyListFromType_invariants at a concrete struct with an
exposed required field, an exposed optional field and an internal field of an
unserializable kind. -/
theorem propertyListFromType_invariants_witness :
    (∀ k, k ∈ keysOf [("out", specOutTrue), ("opt", specOptTrue)] ↔
      k ∈ exposedNames [fldOut, fldOpt, fldInternal]) ∧
    (∀ k, k ∈ ["out"] → k ∈ keysOf [("out", specOutTrue), ("opt", specOptTrue)]) ∧
    (∀ fn tg ty, (fn, Except.ok tg, ty) ∈ [fldOut, fldOpt, fldInternal] →
      tg.internal = true → tg.name ∉ exposedNames [fldOut, fldOpt, fldInternal] →
      tg.name ∉ keysOf [("out", specOutTrue), ("opt", specOptTrue)] ∧ tg.name ∉ ["out"]) :=
  propertyListFromType_invariants 2 "C8Type" [fldOut, fldOpt, fldInternal]
    none false none false [] ("", none) none true
    [("out", specOutTrue), ("opt", specOptTrue)] ["out"] rfl

theorem plftLoop_first_error (fuel : Nat) (tn : String) (ann : Annotator) (ip : Bool)
    (f : String × Except String FieldTag × GoType)
    (rest : List (String × Except String FieldTag × GoType)) (e : Err) :
    ∀ (pre : List (String × Except String FieldTag × GoType))
      (props0 : PMap) (req0 : List String),
      (∀ g ∈ pre, ∃ r, fieldStep fuel tn ann ip g = .ok r) →
      fieldStep fuel tn ann ip f = .error e →
      plftLoop fuel tn ann ip (pre ++ f :: rest) props0 req0 = (none, [], some e) := by
  intro pre
  induction pre with
  | nil =>
    intro props0 req0 _ hfail
    rw [List.nil_append, plftLoop, hfail]
  | cons g gs ih =>
    intro props0 req0 hok hfail
    obtain ⟨r, hr⟩ := hok g (List.mem_cons_self g gs)
    rcases r with _ | ⟨tags, spec⟩
    · rw [List.cons_append, plftLoop, hr]
      exact ih props0 req0 (fun g' hg' => hok g' (List.mem_cons_of_mem _ hg')) hfail
    · rw [List.cons_append, plftLoop, hr]
      exact ih _ _ (fun g' hg' => hok g' (List.mem_cons_of_mem _ hg')) hfail

/-- C1 counterexample: a struct whose first field is well-formed and whose
second and third fields both have malformed tags.  The collector stops at the
second field: it returns a nil property map (the first field's accumulated
property is discarded), a nil required list, and only the second field's
error; the third field's error is never reported.  This refutes the claim
that an error aborts only the failing field and that the accumulated map and
every field error are returned. -/
theorem propertyListFromType_stops_at_first_error :
    propertyListFromType 2 c1Type true =
      (none, [], some (.fail "invalid fields Bad on C1Type: malformed tag")) ∧
    (propertyListFromType 2 c1Type true).1 = none :=
  ⟨rfl, rfl⟩

/-- C1 (amended): an error on any field aborts the whole collection, not just
that field: when every field before f succeeds (or is skipped as internal)
and f fails, propertyListFromType returns a nil property map, a nil required
list and exactly f's error; errors of later fields are not collected.
Multi-error aggregation happens only one level up, in getResourceSchema,
between the whole output pass and the whole input pass. -/
theorem propertyListFromType_first_error (fuel : Nat) (nm : String)
    (fields pre rest : List (String × Except String FieldTag × GoType))
    (f : String × Except String FieldTag × GoType) (e : Err)
    (s : Option (String × Option String)) (p : Bool) (o : Option GoType) (i : Bool)
    (m : List (String × GoType)) (tk : String × Option String) (an : Option Annotator)
    (ip : Bool)
    (hf : fields = pre ++ f :: rest)
    (hok : ∀ g ∈ pre, ∃ r, fieldStep fuel nm
      (getAnnotated (.strct nm fields s p o i m tk an)) ip g = .ok r)
    (hfail : fieldStep fuel nm
      (getAnnotated (.strct nm fields s p o i m tk an)) ip f = .error e) :
    propertyListFromType fuel (.strct nm fields s p o i m tk an) ip =
      (none, [], some e) := by
  subst hf
  exact plftLoop_first_error fuel nm _ ip f rest e pre [] [] hok hfail

/-- Witness for propertyListFromType_first_error: on c1Type the good first
field succeeds, the second field's malformed tag fails, and the collector
returns nil, nil and that error. -/
theorem propertyListFromType_first_error_witness :
    propertyListFromType 2 c1Type true =
      (none, [], some (Err.fail "invalid fields Bad on C1Type: malformed tag")) :=
  propertyListFromType_first_error 2 "C1Type" [fldOut, fldBadTag, fldBadTag2]
    [fldOut] [fldBadTag2] fldBadTag
    (.fail "invalid fields Bad on C1Type: malformed tag")
    none false none false [] ("", none) none true rfl
    (by
      intro g hg
      rw [List.mem_singleton] at hg
      subst hg
      exact ⟨_, rfl⟩)
    rfl
